import Mathlib

/-!
Verification of the stock-data ingestion pipeline
(`src/ingestion/{validator,storage,downloader,pipeline}.py`).

Shallow embedding conventions:
* A pandas row is a `Row`: every cell is an `Option` value, `none` standing
  for a missing value (NaN/NaT/None).  Prices are modelled as `Int` (only
  order comparisons with `0` and between fields matter to the code under
  verification), volumes as `Int`, calendar dates as `Nat` ordinals
  (one day = `+1`).
* pandas comparison semantics: a comparison against a missing value is
  `false` (`NaN >= 0` is `False`, so `df[df[c] >= 0]` drops NaN rows).
* A pandas DataFrame is a `Frame`: the row data plus the structural facts the
  schema validator inspects (which columns exist, dtype facts), which a fixed
  record of typed cells cannot carry.
* The DuckDB table `stock_prices` is a `List Row`; SQL `NULL` comparisons are
  false, `MAX` ignores `NULL`s, and a failed `INSERT` rolls back only the
  insert statement (DuckDB autocommits per statement), which is modelled by
  `Except` carrying the post-exception table state.
* Messages appended to logs/reports are modelled as tagged values
  (`SchemaErr`, `QualityWarn`, `Msg`) carrying the same data the source
  interpolates into its strings.
-/

/-- One row of a stock-price DataFrame in the canonical (post-download)
column layout `ticker, date, open, high, low, close, volume, adj_close`.
`none` models a missing value (NaN/NaT/None). -/
structure Row where
  ticker : Option String
  date : Option Nat
  open_ : Option Int
  high : Option Int
  low : Option Int
  close : Option Int
  volume : Option Int
  adj_close : Option Int
deriving DecidableEq, Repr

/-- A pandas DataFrame as seen by `DataValidator.validate_schema`: the rows,
the set of column names actually present, and the dtype facts the schema
pass inspects (`is_string_dtype`, `pd.to_datetime` success,
`is_numeric_dtype` per numeric column). -/
structure Frame where
  cols : List String
  rows : List Row
  tickerIsString : Bool
  dateParseable : Bool
  openNumeric : Bool
  highNumeric : Bool
  lowNumeric : Bool
  closeNumeric : Bool
  adjCloseNumeric : Bool
  volumeNumeric : Bool
deriving DecidableEq, Repr

/-- `DataValidator.required_columns` (validator.py line 16). -/
def required_columns : List String :=
  ["ticker", "date", "open", "high", "low", "close", "volume", "adj_close"]

/-- `settings.min_data_points` (settings.py: `MIN_DATA_POINTS = 10`). -/
def min_data_points : Nat := 10

/-- Schema errors produced by `validate_schema`, as tagged values carrying
the data the source interpolates into its messages. -/
inductive SchemaErr where
  | emptyFrame
  | missingColumns (cols : List String)
  | tickerNotString
  | badDateFormat
  | notNumeric (col : String)
deriving DecidableEq, Repr

/-- Quality warnings produced by `validate_data_quality` (and the
`"Skipped quality validation due to schema errors"` entry added by
`validate`), as tagged values. -/
inductive QualityWarn where
  | emptyFrame
  | insufficientData (n : Nat) (minPts : Nat)
  | negativeValues (col : String) (count : Nat)
  | highLtLow (count : Nat)
  | missingValues (col : String) (count : Nat)
  | duplicates (count : Nat)
  | dateGaps (count : Nat)
  | skippedSchema
deriving DecidableEq, Repr

/-- pandas `x < 0` on an optional cell: `False` when the value is missing. -/
def isNeg : Option Int → Bool
  | some x => decide (x < 0)
  | none => false

/-- pandas `x >= 0` on an optional cell: `False` when the value is missing
(`NaN >= 0` is `False`). -/
def ge0 : Option Int → Bool
  | some x => decide (0 ≤ x)
  | none => false

/-- The five price columns with their accessors, in the order the source
iterates them (`price_cols = ['open','high','low','close','adj_close']`). -/
def priceFields : List (String × (Row → Option Int)) :=
  [("open", Row.open_), ("high", Row.high), ("low", Row.low),
   ("close", Row.close), ("adj_close", Row.adj_close)]

/-- `(df[col] < 0).sum()` for a column accessor. -/
def negCount (f : Row → Option Int) (df : List Row) : Nat :=
  (df.filter (fun r => isNeg (f r))).length

/-- The per-price-column negative-value warnings, in source order
(validator.py lines 89-94). -/
def negativePriceWarnings (df : List Row) : List QualityWarn :=
  (priceFields.map (fun cf =>
    let n := negCount cf.2 df
    if 0 < n then [QualityWarn.negativeValues cf.1 n] else [])).flatten

/-- The `df['high'] < df['low']` row mask: `True` only when both cells are
present (a comparison with NaN is `False`). -/
def highLtLowMask (r : Row) : Bool :=
  match r.high, r.low with
  | some h, some l => decide (h < l)
  | _, _ => false

/-- `(df['high'] < df['low']).sum()`. -/
def highLtLowCount (df : List Row) : Nat :=
  (df.filter highLtLowMask).length

/-- The required columns with their null tests, in `required_columns` order
(for `df[self.required_columns].isnull().sum()`). -/
def requiredNullFields : List (String × (Row → Bool)) :=
  [("ticker", fun r => r.ticker.isNone), ("date", fun r => r.date.isNone),
   ("open", fun r => r.open_.isNone), ("high", fun r => r.high.isNone),
   ("low", fun r => r.low.isNone), ("close", fun r => r.close.isNone),
   ("volume", fun r => r.volume.isNone), ("adj_close", fun r => r.adj_close.isNone)]

/-- The per-column missing-value warnings (validator.py lines 108-113). -/
def missingValueWarnings (df : List Row) : List QualityWarn :=
  (requiredNullFields.map (fun cf =>
    let n := (df.filter cf.2).length
    if 0 < n then [QualityWarn.missingValues cf.1 n] else [])).flatten

/-- The `(ticker, date)` natural key of a row; pandas `duplicated` treats
missing values as equal, matching structural equality on `Option`. -/
def keyOf (r : Row) : Option String × Option Nat := (r.ticker, r.date)

/-- `df.duplicated(subset=['ticker','date']).sum()`: every occurrence after
the first of each key counts, i.e. row count minus distinct-key count. -/
def dupCount (df : List Row) : Nat :=
  df.length - ((df.map keyOf).dedup).length

/-- Insert into a list sorted ascending. -/
def insertByDate (x : Nat) : List Nat → List Nat
  | [] => [x]
  | y :: ys => if x ≤ y then x :: y :: ys else y :: insertByDate x ys

/-- Ascending insertion sort, modelling `df.sort_values('date')` on the
non-missing dates (pandas sorts NaT last, and differences against NaT are
NaN, which a `> 7` mask drops, so only consecutive present dates count). -/
def sortDates : List Nat → List Nat
  | [] => []
  | x :: xs => insertByDate x (sortDates xs)

/-- Count consecutive pairs of a sorted date list more than 7 days apart
(`date_diffs[date_diffs > 7].count()`). -/
def countLargeGaps : List Nat → Nat
  | a :: b :: rest => (if 7 < b - a then 1 else 0) + countLargeGaps (b :: rest)
  | _ => 0

/-- The source's large-gap count over a row set (validator.py lines 121-128). -/
def largeGapCount (df : List Row) : Nat :=
  countLargeGaps (sortDates (df.filterMap Row.date))

/-- `DataValidator.validate_data_quality` (validator.py lines 68-137):
returns `(is_valid, warnings)` with `is_valid = warnings.isEmpty` on the
non-empty path.  The column-presence guards of the source are satisfied
identically here because `Row` carries every canonical column. -/
def validate_data_quality (df : List Row) : Bool × List QualityWarn :=
  if df.isEmpty then (false, [QualityWarn.emptyFrame])
  else
    let ws :=
      (if df.length < min_data_points then
        [QualityWarn.insufficientData df.length min_data_points] else [])
      ++ negativePriceWarnings df
      ++ (let n := negCount Row.volume df
          if 0 < n then [QualityWarn.negativeValues "volume" n] else [])
      ++ (let n := highLtLowCount df
          if 0 < n then [QualityWarn.highLtLow n] else [])
      ++ missingValueWarnings df
      ++ (let n := dupCount df
          if 0 < n then [QualityWarn.duplicates n] else [])
      ++ (if 1 < df.length then
            (let n := largeGapCount df
             if 0 < n then [QualityWarn.dateGaps n] else [])
          else [])
    (ws.isEmpty, ws)

/-- The numeric-dtype flags of a frame paired with their column names, in
the order the source iterates (`['open','high','low','close','adj_close']`). -/
def numericFlags (f : Frame) : List (String × Bool) :=
  [("open", f.openNumeric), ("high", f.highNumeric), ("low", f.lowNumeric),
   ("close", f.closeNumeric), ("adj_close", f.adjCloseNumeric)]

/-- `DataValidator.validate_schema` (validator.py lines 18-66): empty frame
short-circuits; otherwise collects missing-column, dtype and date-format
errors and returns `(errors.isEmpty, errors)`. -/
def validate_schema (f : Frame) : Bool × List SchemaErr :=
  if f.rows.isEmpty then (false, [SchemaErr.emptyFrame])
  else
    let missing := required_columns.filter (fun c => !(f.cols.contains c))
    let errs :=
      (if !missing.isEmpty then [SchemaErr.missingColumns missing] else [])
      ++ (if f.cols.contains "ticker" && !f.tickerIsString then
            [SchemaErr.tickerNotString] else [])
      ++ (if f.cols.contains "date" && !f.dateParseable then
            [SchemaErr.badDateFormat] else [])
      ++ ((numericFlags f).map (fun cb =>
            if f.cols.contains cb.1 && !cb.2 then
              [SchemaErr.notNumeric cb.1] else [])).flatten
      ++ (if f.cols.contains "volume" && !f.volumeNumeric then
            [SchemaErr.notNumeric "volume"] else [])
    (errs.isEmpty, errs)

/-- `DataValidator.validate` (validator.py lines 139-167): the quality pass
runs only when the schema pass succeeded; otherwise the quality-warning
list is the single `skippedSchema` entry and validity is `false`. -/
def validate (f : Frame) : Bool × List SchemaErr × List QualityWarn :=
  let s := validate_schema f
  if s.1 then
    let q := validate_data_quality f.rows
    (s.1 && q.1, s.2, q.2)
  else
    (false, s.2, [QualityWarn.skippedSchema])

/-- pandas `df['high'] >= df['low']` row mask: `False` when either side is
missing. -/
def highGeLow (r : Row) : Bool :=
  match r.high, r.low with
  | some h, some l => decide (l ≤ h)
  | _, _ => false

/-- `df.dropna(subset=['ticker','date','close'])` keep-mask. -/
def notNullKey (r : Row) : Bool :=
  r.ticker.isSome && r.date.isSome && r.close.isSome

/-- `DataValidator.filter_invalid_rows` (validator.py lines 169-205):
sequentially keeps rows with non-negative `open/high/low/close/adj_close`,
non-negative `volume`, `high >= low`, then drops rows missing any of
`ticker`, `date`, `close`.  Each comparison is `False` on a missing value,
so those rows are dropped too. -/
def filter_invalid_rows (df : List Row) : List Row :=
  if df.isEmpty then df
  else
    ((((((((df.filter (fun r => ge0 r.open_)).filter
        (fun r => ge0 r.high)).filter
        (fun r => ge0 r.low)).filter
        (fun r => ge0 r.close)).filter
        (fun r => ge0 r.adj_close)).filter
        (fun r => ge0 r.volume)).filter highGeLow).filter notNullKey)

/-- pandas `series.min()` over the present values (`NaN` skipped). -/
def listMin : List Nat → Option Nat
  | [] => none
  | a :: as =>
    match listMin as with
    | none => some a
    | some b => some (Nat.min a b)

/-- pandas `series.max()` over the present values (`NaN` skipped). -/
def listMax : List Nat → Option Nat
  | [] => none
  | a :: as =>
    match listMax as with
    | none => some a
    | some b => some (Nat.max a b)

/-- The SQL predicate `ticker = ? AND date BETWEEN ? AND ?` of the delete in
`upsert_data`; `NULL` never compares equal, so a stored row with a missing
ticker or date never matches. -/
def inSpan (tk : String) (lo hi : Nat) (r : Row) : Bool :=
  decide (r.ticker = some tk) &&
  (match r.date with
   | some d => decide (lo ≤ d) && decide (d ≤ hi)
   | none => false)

/-- The conditions under which the `INSERT` of `upsert_data` succeeds against
the `stock_prices` table: every inserted row satisfies the `NOT NULL`
constraints of the key columns, and no `(ticker, date)` primary key is
duplicated, either inside the batch or against the rows already stored. -/
def InsertOk (store df : List Row) : Prop :=
  (∀ r ∈ df, r.ticker.isSome ∧ r.date.isSome) ∧
  (df.map keyOf).Nodup ∧
  (∀ r ∈ df, keyOf r ∉ store.map keyOf)

instance (store df : List Row) : Decidable (InsertOk store df) := by
  unfold InsertOk; infer_instance

/-- `DuckDBStorage.upsert_data` (storage.py lines 95-137).  An empty frame
returns `0` untouched; otherwise the ticker is read from the first row, the
delete span from the min/max of the present dates, rows of that ticker in
the span are deleted, and the batch is inserted.  `Except.error` models the
raised exception, carrying the table state after the (auto-committed)
delete; with a missing first ticker or no present date the delete matches
nothing and the insert fails on a `NOT NULL` constraint. -/
def upsert_data (store df : List Row) : Except (List Row) (List Row × Nat) :=
  match df with
  | [] => Except.ok (store, 0)
  | r0 :: _ =>
    match r0.ticker, listMin (df.filterMap Row.date), listMax (df.filterMap Row.date) with
    | some tk, some lo, some hi =>
      let store2 := store.filter (fun r => !(inSpan tk lo hi r))
      if InsertOk store2 df then Except.ok (store2 ++ df, df.length)
      else Except.error store2
    | _, _, _ => Except.error store

/-- `DuckDBStorage.get_last_date` (storage.py lines 70-93):
`SELECT MAX(date) FROM stock_prices WHERE ticker = ?`, `none` when the
ticker has no rows (or only `NULL` dates). -/
def get_last_date (store : List Row) (tk : String) : Option Nat :=
  listMax (store.filterMap (fun r => if r.ticker = some tk then r.date else none))

/-- The store invariant of the spec: at most one row per `(ticker, date)`
key. -/
def KeyUnique (store : List Row) : Prop :=
  (store.map keyOf).Nodup

theorem listMin_le {l : List Nat} {m : Nat} (h : listMin l = some m) :
    ∀ b ∈ l, m ≤ b := by
  induction l generalizing m with
  | nil => simp [listMin] at h
  | cons a as ih =>
    intro b hb
    simp only [listMin] at h
    rcases List.mem_cons.mp hb with rfl | hb'
    · cases hmin : listMin as with
      | none => rw [hmin] at h; injection h with h; omega
      | some c =>
        rw [hmin] at h; injection h with h; subst h
        exact Nat.min_le_left _ _
    · cases hmin : listMin as with
      | none =>
        exfalso
        cases as with
        | nil => simp at hb'
        | cons c cs =>
          simp only [listMin] at hmin
          cases hcc : listMin cs <;> rw [hcc] at hmin <;> simp at hmin
      | some c =>
        rw [hmin] at h; injection h with h; subst h
        exact le_trans (Nat.min_le_right a c) (ih hmin b hb')

theorem le_listMax {l : List Nat} {m : Nat} (h : listMax l = some m) :
    ∀ b ∈ l, b ≤ m := by
  induction l generalizing m with
  | nil => simp [listMax] at h
  | cons a as ih =>
    intro b hb
    simp only [listMax] at h
    rcases List.mem_cons.mp hb with rfl | hb'
    · cases hmax : listMax as with
      | none => rw [hmax] at h; injection h with h; omega
      | some c =>
        rw [hmax] at h; injection h with h; subst h
        exact Nat.le_max_left _ _
    · cases hmax : listMax as with
      | none =>
        exfalso
        cases as with
        | nil => simp at hb'
        | cons c cs =>
          simp only [listMax] at hmax
          cases hcc : listMax cs <;> rw [hcc] at hmax <;> simp at hmax
      | some c =>
        rw [hmax] at h; injection h with h; subst h
        exact le_trans (ih hmax b hb') (Nat.le_max_right a c)

theorem listMin_isSome {l : List Nat} (h : l ≠ []) : ∃ m, listMin l = some m := by
  cases l with
  | nil => exact absurd rfl h
  | cons a as =>
    simp only [listMin]
    cases listMin as with
    | none => exact ⟨a, rfl⟩
    | some b => exact ⟨Nat.min a b, rfl⟩

theorem listMax_isSome {l : List Nat} (h : l ≠ []) : ∃ m, listMax l = some m := by
  cases l with
  | nil => exact absurd rfl h
  | cons a as =>
    simp only [listMax]
    cases listMax as with
    | none => exact ⟨a, rfl⟩
    | some b => exact ⟨Nat.max a b, rfl⟩

/-- Every row of a single-ticker batch with present dates lies in the delete
span derived from the batch's own min/max date. -/
theorem inSpan_of_mem {df : List Row} {tk : String} {lo hi : Nat}
    (htk : ∀ r ∈ df, r.ticker = some tk)
    (hlo : listMin (df.filterMap Row.date) = some lo)
    (hhi : listMax (df.filterMap Row.date) = some hi) :
    ∀ r ∈ df, ∀ d, r.date = some d → inSpan tk lo hi r = true := by
  intro r hr d hd
  have hdm : d ∈ df.filterMap Row.date := List.mem_filterMap.mpr ⟨r, hr, hd⟩
  have h1 := listMin_le hlo d hdm
  have h2 := le_listMax hhi d hdm
  simp [inSpan, htk r hr, hd, h1, h2]

/-- The success conditions of the insert hold automatically for a non-empty
single-ticker batch with distinct present dates, once the delete has cleared
the span. -/
theorem insertOk_of_spanned {store df : List Row} {tk : String} {lo hi : Nat}
    (htk : ∀ r ∈ df, r.ticker = some tk)
    (hdates : ∀ r ∈ df, r.date.isSome)
    (hkeys : (df.map keyOf).Nodup)
    (hlo : listMin (df.filterMap Row.date) = some lo)
    (hhi : listMax (df.filterMap Row.date) = some hi) :
    InsertOk (store.filter (fun r => !(inSpan tk lo hi r))) df := by
  refine ⟨fun r hr => ⟨by simp [htk r hr], hdates r hr⟩, hkeys, ?_⟩
  intro r hr hmem
  obtain ⟨s, hs, hks⟩ := List.mem_map.mp hmem
  have hsf := List.mem_filter.mp hs
  obtain ⟨d, hd⟩ := Option.isSome_iff_exists.mp (hdates r hr)
  have hspan : inSpan tk lo hi s = true := by
    have : s.ticker = some tk ∧ s.date = some d := by
      have := hks
      simp only [keyOf, Prod.mk.injEq] at this
      rw [this.1, this.2, htk r hr, hd]
      exact ⟨rfl, rfl⟩
    have h1 := inSpan_of_mem htk hlo hhi r hr d hd
    simp only [inSpan] at h1 ⊢
    rw [this.1, this.2]
    rw [htk r hr, hd] at h1
    exact h1
  rw [hspan] at hsf
  simp at hsf

/-- Structural characterization of a successful `upsert_data` call: for a
non-empty single-ticker batch with distinct present dates, the new table is
the old one minus the ticker's rows in the batch's date span, plus the
batch, and the reported count is the batch size. -/
theorem upsert_spec {df : List Row} {tk : String} {lo hi : Nat} (store : List Row)
    (hne : df ≠ [])
    (htk : ∀ r ∈ df, r.ticker = some tk)
    (hdates : ∀ r ∈ df, r.date.isSome)
    (hkeys : (df.map keyOf).Nodup)
    (hlo : listMin (df.filterMap Row.date) = some lo)
    (hhi : listMax (df.filterMap Row.date) = some hi) :
    upsert_data store df =
      Except.ok (store.filter (fun r => !(inSpan tk lo hi r)) ++ df, df.length) := by
  have hok := @insertOk_of_spanned store df tk lo hi htk hdates hkeys hlo hhi
  obtain ⟨r0, rest, rfl⟩ := List.exists_cons_of_ne_nil hne
  have h0 : r0.ticker = some tk := htk r0 (List.mem_cons_self _ _)
  simp only [upsert_data, h0, hlo, hhi]
  rw [if_pos hok]

theorem filterMap_date_ne_nil {df : List Row} (hne : df ≠ [])
    (hdates : ∀ r ∈ df, r.date.isSome) : df.filterMap Row.date ≠ [] := by
  obtain ⟨r0, rest, rfl⟩ := List.exists_cons_of_ne_nil hne
  obtain ⟨d, hd⟩ := Option.isSome_iff_exists.mp (hdates r0 (List.mem_cons_self _ _))
  intro hcon
  have : d ∈ (r0 :: rest).filterMap Row.date :=
    List.mem_filterMap.mpr ⟨r0, List.mem_cons_self _ _, hd⟩
  rw [hcon] at this
  simp at this

/-- C1: upserting the same non-empty single-ticker batch with distinct
present `(ticker, date)` keys twice in succession leaves the store holding
exactly the rows of a single call (same rows, same order, hence same count
and content), and both calls report the same affected-row count. -/
theorem C1_upsert_idempotent {df : List Row} {tk : String} (store : List Row)
    (hne : df ≠ [])
    (htk : ∀ r ∈ df, r.ticker = some tk)
    (hdates : ∀ r ∈ df, r.date.isSome)
    (hkeys : (df.map keyOf).Nodup) :
    ∃ st1, upsert_data store df = Except.ok (st1, df.length) ∧
      upsert_data st1 df = Except.ok (st1, df.length) := by
  obtain ⟨lo, hlo⟩ := listMin_isSome (filterMap_date_ne_nil hne hdates)
  obtain ⟨hi, hhi⟩ := listMax_isSome (filterMap_date_ne_nil hne hdates)
  refine ⟨store.filter (fun r => !(inSpan tk lo hi r)) ++ df,
    upsert_spec store hne htk hdates hkeys hlo hhi, ?_⟩
  have h2 := upsert_spec (store.filter (fun r => !(inSpan tk lo hi r)) ++ df)
    hne htk hdates hkeys hlo hhi
  rw [h2]
  have hdf : df.filter (fun r => !(inSpan tk lo hi r)) = [] := by
    apply List.filter_eq_nil_iff.mpr
    intro r hr
    obtain ⟨d, hd⟩ := Option.isSome_iff_exists.mp (hdates r hr)
    simp [inSpan_of_mem htk hlo hhi r hr d hd]
  have hidem : ((store.filter (fun r => !(inSpan tk lo hi r))).filter
      (fun r => !(inSpan tk lo hi r))) = store.filter (fun r => !(inSpan tk lo hi r)) :=
    List.filter_eq_self.mpr (fun a ha => (List.mem_filter.mp ha).2)
  rw [List.filter_append, hdf, List.append_nil, hidem]

/-- C2: a successful upsert of a non-empty single-ticker batch removes
exactly the ticker's stored rows dated inside the batch's own `[min, max]`
span and appends the batch; every stored row of a different ticker, and
every same-ticker row dated outside that span, survives — in particular
stale rows beyond the batch's min/max are never cleared. -/
theorem C2_upsert_frame {df : List Row} {tk : String} {lo hi : Nat} (store : List Row)
    (hne : df ≠ [])
    (htk : ∀ r ∈ df, r.ticker = some tk)
    (hdates : ∀ r ∈ df, r.date.isSome)
    (hkeys : (df.map keyOf).Nodup)
    (hlo : listMin (df.filterMap Row.date) = some lo)
    (hhi : listMax (df.filterMap Row.date) = some hi) :
    upsert_data store df =
      Except.ok (store.filter (fun r => !(inSpan tk lo hi r)) ++ df, df.length) ∧
    (∀ s ∈ store, s.ticker ≠ some tk →
      s ∈ store.filter (fun r => !(inSpan tk lo hi r)) ++ df) ∧
    (∀ s ∈ store, ∀ d, s.date = some d → (d < lo ∨ hi < d) →
      s ∈ store.filter (fun r => !(inSpan tk lo hi r)) ++ df) ∧
    (∀ s ∈ store, inSpan tk lo hi s = true →
      s ∉ store.filter (fun r => !(inSpan tk lo hi r))) := by
  refine ⟨upsert_spec store hne htk hdates hkeys hlo hhi, ?_, ?_, ?_⟩
  · intro s hs hneq
    apply List.mem_append_left
    refine List.mem_filter.mpr ⟨hs, ?_⟩
    simp [inSpan, hneq]
  · intro s hs d hd hout
    apply List.mem_append_left
    refine List.mem_filter.mpr ⟨hs, ?_⟩
    have : inSpan tk lo hi s = false := by
      simp only [inSpan, hd]
      rcases hout with h | h
      · have h1 : decide (lo ≤ d) = false := by simp; omega
        simp [h1]
      · have h1 : decide (d ≤ hi) = false := by simp; omega
        simp [h1]
    simp [this]
  · intro s hs hspan hmem
    have := (List.mem_filter.mp hmem).2
    rw [hspan] at this
    simp at this

/-- C3: a successful `upsert_data` call preserves the at-most-one-row-per-
`(ticker, date)`-key invariant of the store: the delete clears the span
before the batch (itself key-distinct by the insert's success) is inserted,
so keys are replaced, never duplicated. -/
theorem C3_key_unique_preserved {store df st2 : List Row} {n : Nat}
    (hu : KeyUnique store)
    (h : upsert_data store df = Except.ok (st2, n)) :
    KeyUnique st2 := by
  cases df with
  | nil =>
    simp only [upsert_data, Except.ok.injEq, Prod.mk.injEq] at h
    rw [← h.1]
    exact hu
  | cons r0 rest =>
    simp only [upsert_data] at h
    split at h
    · rename_i tk lo hi heq1 heq2 heq3
      split at h
      · rename_i hok
        simp only [Except.ok.injEq, Prod.mk.injEq] at h
        rw [← h.1]
        unfold KeyUnique
        rw [List.map_append]
        refine List.Nodup.append ?_ hok.2.1 ?_
        · exact hu.sublist ((List.filter_sublist _).map keyOf)
        · intro a ha1 ha2
          obtain ⟨r, hr, rfl⟩ := List.mem_map.mp ha2
          exact hok.2.2 r hr ha1
      · exact absurd h (by simp)
    · rename_i hmiss
      exact absurd h (by simp)

/-- A well-formed sample row for concrete witnesses. -/
def wRow (tk : String) (d : Nat) (o : Int) : Row :=
  ⟨some tk, some d, some o, some (o + 1), some o, some (o + 1), some 100, some (o + 1)⟩

/-- A sample store: ticker A on days 1 and 50, ticker B on day 1. -/
def wStore : List Row := [wRow "A" 1 9, wRow "B" 1 3, wRow "A" 50 2]

/-- A sample batch for ticker A on days 1 and 2. -/
def wDf : List Row := [wRow "A" 1 1, wRow "A" 2 1]

theorem C1_witness :
    ∃ st1, upsert_data wStore wDf = Except.ok (st1, wDf.length) ∧
      upsert_data st1 wDf = Except.ok (st1, wDf.length) :=
  @C1_upsert_idempotent wDf "A" wStore (by decide) (by decide) (by decide) (by decide)

theorem C2_witness :
    upsert_data wStore wDf =
      Except.ok (wStore.filter (fun r => !(inSpan "A" 1 2 r)) ++ wDf, wDf.length) ∧
    wRow "B" 1 3 ∈ wStore.filter (fun r => !(inSpan "A" 1 2 r)) ++ wDf ∧
    wRow "A" 50 2 ∈ wStore.filter (fun r => !(inSpan "A" 1 2 r)) ++ wDf ∧
    wRow "A" 1 9 ∉ wStore.filter (fun r => !(inSpan "A" 1 2 r)) := by
  have h := @C2_upsert_frame wDf "A" 1 2 wStore (by decide) (by decide) (by decide)
    (by decide) (by decide) (by decide)
  exact ⟨h.1, h.2.1 (wRow "B" 1 3) (by decide) (by decide),
    h.2.2.1 (wRow "A" 50 2) (by decide) 50 rfl (by decide),
    h.2.2.2 (wRow "A" 1 9) (by decide) (by decide)⟩

theorem C3_witness :
    KeyUnique (wStore.filter (fun r => !(inSpan "A" 1 2 r)) ++ wDf) :=
  @C3_key_unique_preserved wStore wDf
    (wStore.filter (fun r => !(inSpan "A" 1 2 r)) ++ wDf) wDf.length
    (by unfold KeyUnique; decide) (by rfl)

theorem validate_schema_fst (f : Frame) :
    (validate_schema f).1 = (validate_schema f).2.isEmpty := by
  unfold validate_schema
  split <;> rfl

theorem validate_data_quality_fst (df : List Row) :
    (validate_data_quality df).1 = (validate_data_quality df).2.isEmpty := by
  unfold validate_data_quality
  split <;> rfl

/-- C4: `validate` reports `valid = true` exactly when the schema-error list
and the quality-warning list are both empty; any schema error or any
quality warning forces `valid = false`. -/
theorem C4_valid_iff_no_issues (f : Frame) :
    (validate f).1 = true ↔ ((validate f).2.1 = [] ∧ (validate f).2.2 = []) := by
  have hs := validate_schema_fst f
  have hq := validate_data_quality_fst f.rows
  simp only [validate]
  split
  · rename_i hsv
    have herrs : (validate_schema f).2 = [] := by
      rw [hsv] at hs
      exact List.isEmpty_iff.mp hs.symm
    simp only [hsv, Bool.true_and, herrs, true_and]
    rw [hq]
    cases h3 : (validate_data_quality f.rows).2 <;> simp
  · rename_i hsv
    have herrs : (validate_schema f).2 ≠ [] := by
      intro hcon
      rw [hcon] at hs
      simp at hs
      exact hsv hs
    simp [herrs]

theorem mem_filter_invalid {df : List Row} {r : Row}
    (h : r ∈ filter_invalid_rows df) :
    ge0 r.open_ = true ∧ ge0 r.high = true ∧ ge0 r.low = true ∧
    ge0 r.close = true ∧ ge0 r.adj_close = true ∧ ge0 r.volume = true ∧
    highGeLow r = true ∧ notNullKey r = true := by
  unfold filter_invalid_rows at h
  by_cases hemp : df.isEmpty
  · rw [if_pos hemp] at h
    rw [List.isEmpty_iff.mp hemp] at h
    simp at h
  · rw [if_neg hemp] at h
    simp only [List.mem_filter] at h
    tauto

theorem ge0_no_neg {o : Option Int} (h : ge0 o = true) : isNeg o = false := by
  cases o with
  | none => simp [ge0] at h
  | some x =>
    simp only [ge0, decide_eq_true_eq] at h
    simp only [isNeg, decide_eq_false_iff_not]
    omega

theorem ge0_isSome {o : Option Int} (h : ge0 o = true) : o.isSome = true := by
  cases o with
  | none => simp [ge0] at h
  | some x => rfl

theorem highGeLow_no_lt {r : Row} (h : highGeLow r = true) :
    highLtLowMask r = false := by
  unfold highGeLow at h
  unfold highLtLowMask
  cases hh : r.high with
  | none => rw [hh] at h
  | some x =>
    cases hl : r.low with
    | none => rw [hh, hl] at h
    | some y =>
      rw [hh, hl] at h
      simp only [decide_eq_true_eq] at h
      simp only [decide_eq_false_iff_not]
      omega

/-- C5: after `filter_invalid_rows` no remaining row has a negative value in
any price field, a negative volume, `high < low`, or a missing value in
`ticker`, `date` or `close`; the removal predicates are applied by the
function unconditionally (it takes no warning input), and the result can be
empty even for non-empty input. -/
theorem C5_filter_soundness :
    (∀ (df : List Row) (r : Row), r ∈ filter_invalid_rows df →
      isNeg r.open_ = false ∧ isNeg r.high = false ∧ isNeg r.low = false ∧
      isNeg r.close = false ∧ isNeg r.adj_close = false ∧ isNeg r.volume = false ∧
      highLtLowMask r = false ∧ notNullKey r = true) ∧
    (∃ df : List Row, df ≠ [] ∧ filter_invalid_rows df = []) := by
  constructor
  · intro df r h
    obtain ⟨h1, h2, h3, h4, h5, h6, h7, h8⟩ := mem_filter_invalid h
    exact ⟨ge0_no_neg h1, ge0_no_neg h2, ge0_no_neg h3, ge0_no_neg h4,
      ge0_no_neg h5, ge0_no_neg h6, highGeLow_no_lt h7, h8⟩
  · exact ⟨[⟨some "A", some 1, some (-1), some 1, some 0, some 1, some 1, some 1⟩],
      by decide, by decide⟩

theorem C5_witness :
    isNeg (wRow "A" 1 1).open_ = false ∧ isNeg (wRow "A" 1 1).high = false ∧
    isNeg (wRow "A" 1 1).low = false ∧ isNeg (wRow "A" 1 1).close = false ∧
    isNeg (wRow "A" 1 1).adj_close = false ∧ isNeg (wRow "A" 1 1).volume = false ∧
    highLtLowMask (wRow "A" 1 1) = false ∧ notNullKey (wRow "A" 1 1) = true :=
  C5_filter_soundness.1 [wRow "A" 1 1] (wRow "A" 1 1) (by decide)

/-- C10: `filter_invalid_rows` is stricter than the four stated predicates:
a row with a missing value in any of the six numeric columns is removed
(its non-negativity comparison is `False` on a missing value), so every
surviving row has all six numeric fields present. -/
theorem C10_filter_drops_nulls (df : List Row) (r : Row)
    (h : r ∈ filter_invalid_rows df) :
    r.open_.isSome = true ∧ r.high.isSome = true ∧ r.low.isSome = true ∧
    r.close.isSome = true ∧ r.adj_close.isSome = true ∧ r.volume.isSome = true := by
  obtain ⟨h1, h2, h3, h4, h5, h6, _, _⟩ := mem_filter_invalid h
  exact ⟨ge0_isSome h1, ge0_isSome h2, ge0_isSome h3,
    ge0_isSome h4, ge0_isSome h5, ge0_isSome h6⟩

theorem C10_witness :
    (wRow "B" 3 2).open_.isSome = true ∧ (wRow "B" 3 2).high.isSome = true ∧
    (wRow "B" 3 2).low.isSome = true ∧ (wRow "B" 3 2).close.isSome = true ∧
    (wRow "B" 3 2).adj_close.isSome = true ∧ (wRow "B" 3 2).volume.isSome = true :=
  C10_filter_drops_nulls [wRow "B" 3 2] (wRow "B" 3 2) (by decide)

/-- One provider attempt as seen inside `download_ticker`'s try block
(downloader.py lines 50-101): either the provider's history rows (already
in canonical shape — the renaming/column-selection steps of the source are
pure relabelling here), or a raised exception. -/
inductive FetchTry where
  | rows (rs : List Row)
  | failure
deriving DecidableEq, Repr

/-- `df['ticker'] = ticker` (downloader.py line 70): the downloader stamps
the requested ticker onto every returned row. -/
def setTicker (tk : String) (r : Row) : Row := { r with ticker := some tk }

/-- The retry loop of `StockDataDownloader.download_ticker`, by remaining
attempts: an empty-but-successful response returns `None` at once
(lines 56-58); an exception consumes one attempt; exhausting all attempts
also returns `None` (lines 99-101); a non-empty response is normalized and
returned. -/
def downloadLoop (provider : Nat → FetchTry) (tk : String) :
    Nat → Nat → Option (List Row)
  | 0, _ => none
  | rem + 1, attempt =>
    match provider attempt with
    | FetchTry.rows rs =>
      if rs.isEmpty then none else some (rs.map (setTicker tk))
    | FetchTry.failure => downloadLoop provider tk rem (attempt + 1)

/-- `StockDataDownloader.download_ticker` with `max_retries` attempts
against an abstract provider (one `FetchTry` per attempt index). -/
def download_ticker (maxRetries : Nat) (provider : Nat → FetchTry)
    (tk : String) : Option (List Row) :=
  downloadLoop provider tk maxRetries 0

/-- Entries of the run report's `errors`/`warnings` lists
(pipeline.py lines 96, 103, 111, 119, 136, 160), ticker-tagged as the
source's message strings are. -/
inductive Msg where
  | noData (tk : String)
  | schemaFailed (tk : String) (errs : List SchemaErr)
  | qualityIssues (tk : String) (ws : List QualityWarn)
  | allFiltered (tk : String)
  | pipelineError (tk : String)
  | fatalError
deriving DecidableEq, Repr

/-- The mutable `results` dictionary of `IngestionPipeline.run`
(pipeline.py lines 54-60); the wall-clock `duration_seconds` is real time
and not modelled. -/
structure RunResults where
  tickers_processed : Nat
  tickers_failed : Nat
  total_rows_inserted : Nat
  errors : List Msg
  warnings : List Msg
deriving DecidableEq, Repr

/-- The initial `results` dictionary. -/
def initResults : RunResults := ⟨0, 0, 0, [], []⟩

/-- The run parameters of `IngestionPipeline.run` together with the
configured defaults (`settings.default_start_date` and
`default_end_date`, abstract date ordinals here since they are derived
from the wall clock). -/
structure PipeConfig where
  incremental : Bool
  start_date : Option Nat
  end_date : Option Nat
  default_start_date : Nat
  default_end_date : Nat
  validate_only : Bool
deriving DecidableEq, Repr

/-- The fetch-window start selection of `IngestionPipeline.run`
(pipeline.py lines 71-85): an explicit caller start date always wins;
otherwise an incremental run with prior data starts the day after the last
stored date; otherwise the default lookback start is used. -/
def computeWindowStart (incremental : Bool) (sd : Option Nat)
    (lastDate : Option Nat) (defStart : Nat) : Nat :=
  match sd with
  | some s => s
  | none =>
    if incremental then
      match lastDate with
      | some d => d + 1
      | none => defStart
    else defStart

/-- The frame handed to the validator by the pipeline: the downloader's
normalization (downloader.py lines 60-88) guarantees exactly the canonical
columns, a string ticker column, parseable dates and numeric price/volume
columns. -/
def canonicalFrame (rows : List Row) : Frame :=
  ⟨required_columns, rows, true, true, true, true, true, true, true, true⟩

/-- The storage step of one ticker iteration (pipeline.py lines 125-133):
skipped entirely in validate-only mode, otherwise an upsert whose raised
exception (`Except.error`) escapes to the per-ticker handler. -/
def storeStep (cfg : PipeConfig) (store : List Row) (res : RunResults)
    (df : List Row) : Except (List Row) (List Row × RunResults) :=
  if cfg.validate_only then
    Except.ok (store, { res with tickers_processed := res.tickers_processed + 1 })
  else
    match upsert_data store df with
    | Except.ok (st2, n) =>
      Except.ok (st2, { res with
        total_rows_inserted := res.total_rows_inserted + n,
        tickers_processed := res.tickers_processed + 1 })
    | Except.error st2 => Except.error st2

/-- The per-ticker iteration of `IngestionPipeline.run` after the download
returned (pipeline.py lines 94-133): the empty/absent check, validation,
quality filtering and storage. -/
def afterFetch (cfg : PipeConfig) (store : List Row) (res : RunResults)
    (tk : String) : Option (List Row) → Except (List Row) (List Row × RunResults)
  | none =>
    Except.ok (store, { res with warnings := res.warnings ++ [Msg.noData tk] })
  | some rows =>
    if rows.isEmpty then
      Except.ok (store, { res with warnings := res.warnings ++ [Msg.noData tk] })
    else
      let v := validate (canonicalFrame rows)
      if v.2.1 ≠ [] then
        Except.ok (store, { res with
          errors := res.errors ++ [Msg.schemaFailed tk v.2.1],
          tickers_failed := res.tickers_failed + 1 })
      else
        if v.2.2 = [] then storeStep cfg store res rows
        else
          let res1 := { res with
            warnings := res.warnings ++ [Msg.qualityIssues tk v.2.2] }
          let df2 := filter_invalid_rows rows
          if df2.isEmpty then
            Except.ok (store, { res1 with
              errors := res1.errors ++ [Msg.allFiltered tk],
              tickers_failed := res1.tickers_failed + 1 })
          else storeStep cfg store res1 df2

/-- The body of one ticker iteration of `IngestionPipeline.run`
(pipeline.py lines 69-133), inside the per-ticker `try`: window
computation, download (the abstract collaborator `dl`), then the
post-fetch steps.  `Except.error` is a raised exception carrying the store
state at the raise. -/
def processTickerBody (dl : String → Nat → Nat → Option (List Row))
    (cfg : PipeConfig) (store : List Row) (res : RunResults) (tk : String) :
    Except (List Row) (List Row × RunResults) :=
  let dstart := computeWindowStart cfg.incremental cfg.start_date
    (get_last_date store tk) cfg.default_start_date
  let dend := match cfg.end_date with
    | some e => e
    | none => cfg.default_end_date
  afterFetch cfg store res tk (dl tk dstart dend)

/-- One ticker iteration with its `except` handler (pipeline.py lines
135-140): a raised exception is caught, recorded as a ticker-tagged
pipeline error, and the failed counter bumped. -/
def processTicker (dl : String → Nat → Nat → Option (List Row))
    (cfg : PipeConfig) (st : List Row × RunResults) (tk : String) :
    List Row × RunResults :=
  match processTickerBody dl cfg st.1 st.2 tk with
  | Except.ok p => p
  | Except.error st2 =>
    (st2, { st.2 with
      errors := st.2.errors ++ [Msg.pipelineError tk],
      tickers_failed := st.2.tickers_failed + 1 })

/-- The sequential ticker loop (pipeline.py line 67). -/
def runTickers (dl : String → Nat → Nat → Option (List Row))
    (cfg : PipeConfig) (st : List Row × RunResults) :
    List String → List Row × RunResults
  | [] => st
  | tk :: rest => runTickers dl cfg (processTicker dl cfg st tk) rest

/-- The outcome of one `run` invocation: the report, the final table state
(`none` when the connection was never established), and whether the store
connection is still open when `run` returns. -/
structure RunOutcome where
  results : RunResults
  finalStore : Option (List Row)
  connOpen : Bool
deriving DecidableEq, Repr

/-- `IngestionPipeline.run` (pipeline.py lines 31-169): a failed
`storage.connect()` (`connectRes = none`) raises into the outer handler,
which records a run-fatal error with no ticker processed; otherwise the
ticker loop runs; the `finally` closes the connection on every exit path
(`connOpen = false` always). -/
def run_pipeline (dl : String → Nat → Nat → Option (List Row))
    (cfg : PipeConfig) (connectRes : Option (List Row))
    (tickers : List String) : RunOutcome :=
  match connectRes with
  | none => ⟨{ initResults with errors := [Msg.fatalError] }, none, false⟩
  | some st0 =>
    let p := runTickers dl cfg (st0, initResults) tickers
    ⟨p.2, some p.1, false⟩

/-- C6: the fetch-window start used per ticker by the pipeline: an explicit
caller `start_date` is used as-is; otherwise an incremental run whose store
holds a last date `d` for the ticker starts at `d + 1` (only dates strictly
after `d`); otherwise the default lookback start is used. -/
theorem C6_window_selection (incr : Bool) (sd : Option Nat)
    (store : List Row) (tk : String) (defStart : Nat) :
    (∀ s, sd = some s →
      computeWindowStart incr sd (get_last_date store tk) defStart = s) ∧
    (∀ d, sd = none → incr = true → get_last_date store tk = some d →
      computeWindowStart incr sd (get_last_date store tk) defStart = d + 1) ∧
    (sd = none → (incr = false ∨ get_last_date store tk = none) →
      computeWindowStart incr sd (get_last_date store tk) defStart = defStart) := by
  refine ⟨?_, ?_, ?_⟩
  · intro s hs; rw [hs]; rfl
  · intro d hsd hincr hld; rw [hsd, hincr, hld]; rfl
  · intro hsd hcase
    rw [hsd]
    rcases hcase with h | h
    · rw [h]; rfl
    · rw [h]; cases incr <;> rfl

theorem C6_witness :
    computeWindowStart true none (get_last_date wStore "A") 0 = 50 + 1 :=
  (C6_window_selection true none wStore "A" 0).2.1 50 rfl rfl (by decide)

/-- C7 counterexample: an empty-but-successful provider response and full
retry exhaustion produce the *same* `none` result of `download_ticker` —
the code returns `None` in both cases (downloader.py lines 56-58 and
99-101), so the two outcomes are not distinct. -/
theorem C7_counterexample :
    download_ticker 3 (fun _ => FetchTry.rows []) "AAPL" =
      download_ticker 3 (fun _ => FetchTry.failure) "AAPL" ∧
    download_ticker 3 (fun _ => FetchTry.rows []) "AAPL" = none := by
  exact ⟨rfl, rfl⟩

theorem downloadLoop_all_fail (p : Nat → FetchTry) (tk : String)
    (hp : ∀ i, p i = FetchTry.failure) :
    ∀ (m a : Nat), downloadLoop p tk m a = none := by
  intro m
  induction m with
  | zero => intro a; rfl
  | succ k ih =>
    intro a
    simp only [downloadLoop, hp a]
    exact ih (a + 1)

/-- C7 amended: an empty-but-successful provider response and retry
exhaustion both yield the same `none` ("no data") result of
`download_ticker`; the pipeline treats that result as nothing-to-ingest —
a warning and a skip, not a failure. -/
theorem C7_empty_vs_failure_amended :
    (∀ (m : Nat) (p : Nat → FetchTry) (tk : String),
      0 < m → p 0 = FetchTry.rows [] → download_ticker m p tk = none) ∧
    (∀ (m : Nat) (p : Nat → FetchTry) (tk : String),
      (∀ i, p i = FetchTry.failure) → download_ticker m p tk = none) ∧
    (∀ (dl : String → Nat → Nat → Option (List Row)) (cfg : PipeConfig)
       (store : List Row) (res : RunResults) (tk : String),
      (∀ s e, dl tk s e = none) →
      processTickerBody dl cfg store res tk =
        Except.ok (store,
          { res with warnings := res.warnings ++ [Msg.noData tk] })) := by
  refine ⟨?_, ?_, ?_⟩
  · intro m p tk hm hp
    cases m with
    | zero => rfl
    | succ k =>
      simp only [download_ticker, downloadLoop, hp]
      rfl
  · intro m p tk hp
    exact downloadLoop_all_fail p tk hp m 0
  · intro dl cfg store res tk hdl
    simp only [processTickerBody, hdl]
    rfl

theorem C7_witness :
    download_ticker 2 (fun _ => FetchTry.rows []) "MSFT" = none ∧
    download_ticker 2 (fun _ => FetchTry.failure) "MSFT" = none :=
  ⟨C7_empty_vs_failure_amended.1 2 (fun _ => FetchTry.rows []) "MSFT"
      (by decide) rfl,
   C7_empty_vs_failure_amended.2.1 2 (fun _ => FetchTry.failure) "MSFT"
      (fun _ => rfl)⟩

/-- C8: per-ticker failure isolation: a raised exception inside one
ticker's iteration is caught, recorded as a ticker-tagged error with the
failed counter bumped, and the loop resumes with every remaining ticker
from the post-exception state; only a failed store connection aborts the
run (fatal error, nothing processed); and the store connection is released
(`connOpen = false`) on every exit path. -/
theorem C8_failure_isolation :
    (∀ (dl : String → Nat → Nat → Option (List Row)) (cfg : PipeConfig)
       (store : List Row) (res : RunResults) (tk : String)
       (rest : List String) (st2 : List Row),
      processTickerBody dl cfg store res tk = Except.error st2 →
      runTickers dl cfg (store, res) (tk :: rest) =
        runTickers dl cfg
          (st2, { res with
            errors := res.errors ++ [Msg.pipelineError tk],
            tickers_failed := res.tickers_failed + 1 }) rest) ∧
    (∀ (dl : String → Nat → Nat → Option (List Row)) (cfg : PipeConfig)
       (tickers : List String),
      run_pipeline dl cfg none tickers =
        ⟨{ initResults with errors := [Msg.fatalError] }, none, false⟩) ∧
    (∀ (dl : String → Nat → Nat → Option (List Row)) (cfg : PipeConfig)
       (cr : Option (List Row)) (tickers : List String),
      (run_pipeline dl cfg cr tickers).connOpen = false) := by
  refine ⟨?_, ?_, ?_⟩
  · intro dl cfg store res tk rest st2 h
    simp only [runTickers, processTicker, h]
  · intro dl cfg tickers; rfl
  · intro dl cfg cr tickers; cases cr <;> rfl

/-- A pipeline configuration for concrete runs: incremental, no caller
dates, default window `[0, 100]`, storage enabled. -/
def cfgN : PipeConfig := ⟨true, none, none, 0, 100, false⟩

/-- A downloader stub whose fetched batch carries a duplicate
`(ticker, date)` key, making the subsequent insert raise. -/
def dl8 : String → Nat → Nat → Option (List Row) :=
  fun _ _ _ => some [wRow "A" 1 1, wRow "A" 1 1]

theorem C8_witness :
    runTickers dl8 cfgN ([], initResults) ["A", "B"] =
      runTickers dl8 cfgN
        ([], { initResults with
          errors := [Msg.pipelineError "A"], tickers_failed := 1 }) ["B"] :=
  C8_failure_isolation.1 dl8 cfgN [] initResults "A" ["B"] [] (by rfl)

theorem filter_invalid_sublist (df : List Row) :
    (filter_invalid_rows df).Sublist df := by
  unfold filter_invalid_rows
  split
  · exact List.Sublist.refl _
  · refine (List.filter_sublist _).trans ?_
    refine (List.filter_sublist _).trans ?_
    refine (List.filter_sublist _).trans ?_
    refine (List.filter_sublist _).trans ?_
    refine (List.filter_sublist _).trans ?_
    refine (List.filter_sublist _).trans ?_
    refine (List.filter_sublist _).trans ?_
    exact List.filter_sublist _

theorem keys_nodup_of_dates {df : List Row}
    (h : (df.map Row.date).Nodup) : (df.map keyOf).Nodup := by
  have heq : df.map Row.date = (df.map keyOf).map Prod.snd := by
    rw [List.map_map]; rfl
  rw [heq] at h
  exact h.of_map _

theorem filterMap_filter_sel {p : Row → Bool} {sel : Row → Option Nat}
    (h : ∀ r, (sel r).isSome → p r = true) (l : List Row) :
    (l.filter p).filterMap sel = l.filterMap sel := by
  induction l with
  | nil => rfl
  | cons a as ih =>
    by_cases hp : p a = true
    · rw [List.filter_cons_of_pos hp]
      simp only [List.filterMap_cons]
      rw [ih]
    · rw [List.filter_cons_of_neg (by simp [hp])]
      have hs : sel a = none := by
        cases hsel : sel a with
        | none => rfl
        | some d => exact absurd (h a (by rw [hsel]; rfl)) (by simp [hp])
      simp only [List.filterMap_cons, hs]
      exact ih

/-- An upsert of a batch whose rows all carry ticker `tk` leaves every other
ticker's last stored date unchanged. -/
theorem get_last_date_upsert_other {store df : List Row} {tk tk2 : String}
    {lo hi : Nat}
    (htk : ∀ r ∈ df, r.ticker = some tk) (hne : tk2 ≠ tk) :
    get_last_date (store.filter (fun r => !(inSpan tk lo hi r)) ++ df) tk2 =
      get_last_date store tk2 := by
  unfold get_last_date
  rw [List.filterMap_append]
  have h1 : df.filterMap
      (fun r => if r.ticker = some tk2 then r.date else none) = [] := by
    rw [List.filterMap_eq_nil_iff]
    intro r hr
    rw [if_neg]
    rw [htk r hr]
    simp [Ne.symm hne]
  have h2 : (store.filter (fun r => !(inSpan tk lo hi r))).filterMap
        (fun r => if r.ticker = some tk2 then r.date else none) =
      store.filterMap (fun r => if r.ticker = some tk2 then r.date else none) := by
    apply filterMap_filter_sel
    intro r hr
    have htick : r.ticker = some tk2 := by
      by_contra hcon
      rw [if_neg hcon] at hr
      simp at hr
    have hd : (decide ((some tk2 : Option String) = some tk)) = false :=
      decide_eq_false_iff_not.mpr (by simp [hne])
    have : inSpan tk lo hi r = false := by
      unfold inSpan
      rw [htick, hd, Bool.false_and]
    simp [this]
  rw [h1, h2, List.append_nil]

/-- A non-empty single-ticker batch with present, pairwise-distinct dates
always upserts successfully. -/
theorem upsert_ok_of_wf {df : List Row} {tk : String} (store : List Row)
    (hne : df ≠ [])
    (htk : ∀ r ∈ df, r.ticker = some tk)
    (hdates : ∀ r ∈ df, r.date.isSome)
    (hkeys : (df.map keyOf).Nodup) :
    ∃ lo hi,
      upsert_data store df =
        Except.ok (store.filter (fun r => !(inSpan tk lo hi r)) ++ df, df.length) := by
  obtain ⟨lo, hlo⟩ := listMin_isSome (filterMap_date_ne_nil hne hdates)
  obtain ⟨hi, hhi⟩ := listMax_isSome (filterMap_date_ne_nil hne hdates)
  exact ⟨lo, hi, upsert_spec store hne htk hdates hkeys hlo hhi⟩

theorem storeStep_vonly (cfg : PipeConfig) (hv : cfg.validate_only = true)
    (store : List Row) (res : RunResults) (df : List Row) :
    storeStep cfg store res df =
      Except.ok (store,
        { res with tickers_processed := res.tickers_processed + 1 }) := by
  unfold storeStep
  rw [hv]
  rfl

theorem afterFetch_vonly (cfg : PipeConfig) (hv : cfg.validate_only = true)
    (store : List Row) (res : RunResults) (tk : String) :
    ∀ fetched, ∃ res2,
      afterFetch cfg store res tk fetched = Except.ok (store, res2) ∧
      res2.total_rows_inserted = res.total_rows_inserted := by
  intro fetched
  cases fetched with
  | none => exact ⟨_, rfl, rfl⟩
  | some rows =>
    simp only [afterFetch]
    by_cases hemp : rows.isEmpty = true
    · rw [if_pos hemp]; exact ⟨_, rfl, rfl⟩
    · rw [if_neg hemp]
      by_cases hschema : (validate (canonicalFrame rows)).2.1 ≠ []
      · rw [if_pos hschema]; exact ⟨_, rfl, rfl⟩
      · rw [if_neg hschema]
        by_cases hq : (validate (canonicalFrame rows)).2.2 = []
        · rw [if_pos hq, storeStep_vonly cfg hv]
          exact ⟨_, rfl, rfl⟩
        · rw [if_neg hq]
          by_cases hfil : (filter_invalid_rows rows).isEmpty = true
          · rw [if_pos hfil]; exact ⟨_, rfl, rfl⟩
          · rw [if_neg hfil, storeStep_vonly cfg hv]
            exact ⟨_, rfl, rfl⟩

theorem body_vonly (dl : String → Nat → Nat → Option (List Row))
    (cfg : PipeConfig) (hv : cfg.validate_only = true)
    (store : List Row) (res : RunResults) (tk : String) :
    ∃ res2,
      processTickerBody dl cfg store res tk = Except.ok (store, res2) ∧
      res2.total_rows_inserted = res.total_rows_inserted := by
  simp only [processTickerBody]
  exact afterFetch_vonly cfg hv store res tk _

theorem runTickers_vonly (dl : String → Nat → Nat → Option (List Row))
    (cfg : PipeConfig) (hv : cfg.validate_only = true) :
    ∀ (ts : List String) (store : List Row) (res : RunResults),
      (runTickers dl cfg (store, res) ts).1 = store ∧
      (runTickers dl cfg (store, res) ts).2.total_rows_inserted =
        res.total_rows_inserted := by
  intro ts
  induction ts with
  | nil => intro store res; exact ⟨rfl, rfl⟩
  | cons tk rest ih =>
    intro store res
    obtain ⟨res2, hb, ht⟩ := body_vonly dl cfg hv store res tk
    have hpt : processTicker dl cfg (store, res) tk = (store, res2) := by
      simp [processTicker, hb]
    simp only [runTickers, hpt]
    obtain ⟨h1, h2⟩ := ih store res2
    exact ⟨h1, by rw [h2, ht]⟩

/-- One post-fetch iteration compared between a normal run and an otherwise
identical validate-only run: given equal report lists so far and a fetched
batch that is ticker-stamped with present pairwise-distinct dates, both
iterations succeed, append identical error/warning messages, and the
normal iteration changes at most the processed ticker's stored rows. -/
theorem afterFetch_pair (cfg : PipeConfig) (hv : cfg.validate_only = false)
    (stN stV : List Row) (resN resV : RunResults) (tk : String)
    (herr : resN.errors = resV.errors) (hwarn : resN.warnings = resV.warnings) :
    ∀ fetched : Option (List Row),
      (∀ rows, fetched = some rows →
        (∀ r ∈ rows, r.ticker = some tk) ∧ (∀ r ∈ rows, r.date.isSome) ∧
        (rows.map Row.date).Nodup) →
      ∃ stN' resN' resV',
        afterFetch cfg stN resN tk fetched = Except.ok (stN', resN') ∧
        afterFetch { cfg with validate_only := true } stV resV tk fetched =
          Except.ok (stV, resV') ∧
        resN'.errors = resV'.errors ∧ resN'.warnings = resV'.warnings ∧
        (∀ tk2, tk2 ≠ tk → get_last_date stN' tk2 = get_last_date stN tk2) := by
  intro fetched hfetch
  cases fetched with
  | none =>
    refine ⟨stN, _, _, rfl, rfl, ?_, ?_, fun _ _ => rfl⟩
    · simpa using herr
    · simp [hwarn]
  | some rows =>
    obtain ⟨htk, hdates, hnd⟩ := hfetch rows rfl
    simp only [afterFetch]
    by_cases hemp : rows.isEmpty = true
    · simp only [if_pos hemp]
      refine ⟨stN, _, _, rfl, rfl, ?_, ?_, fun _ _ => rfl⟩
      · simpa using herr
      · simp [hwarn]
    · simp only [if_neg hemp]
      by_cases hschema : (validate (canonicalFrame rows)).2.1 ≠ []
      · simp only [if_pos hschema]
        refine ⟨stN, _, _, rfl, rfl, ?_, ?_, fun _ _ => rfl⟩
        · simp [herr]
        · simpa using hwarn
      · simp only [if_neg hschema]
        have hrne : rows ≠ [] := by
          intro hcon
          rw [hcon] at hemp
          exact hemp rfl
        by_cases hq : (validate (canonicalFrame rows)).2.2 = []
        · simp only [if_pos hq]
          rw [storeStep_vonly { cfg with validate_only := true } rfl]
          obtain ⟨lo, hi, hup⟩ :=
            upsert_ok_of_wf stN hrne htk hdates (keys_nodup_of_dates hnd)
          have hss : storeStep cfg stN resN rows =
              Except.ok (stN.filter (fun r => !(inSpan tk lo hi r)) ++ rows,
                { resN with
                  total_rows_inserted := resN.total_rows_inserted + rows.length,
                  tickers_processed := resN.tickers_processed + 1 }) := by
            unfold storeStep
            rw [hv]
            simp only [Bool.false_eq_true, if_false]
            rw [hup]
          rw [hss]
          refine ⟨_, _, _, rfl, rfl, ?_, ?_, ?_⟩
          · simp [herr]
          · simp [hwarn]
          · intro tk2 hne2
            exact get_last_date_upsert_other htk hne2
        · simp only [if_neg hq]
          by_cases hfil : (filter_invalid_rows rows).isEmpty = true
          · simp only [if_pos hfil]
            refine ⟨stN, _, _, rfl, rfl, ?_, ?_, fun _ _ => rfl⟩
            · simp [herr]
            · simp [hwarn]
          · simp only [if_neg hfil]
            rw [storeStep_vonly { cfg with validate_only := true } rfl]
            have hfne : filter_invalid_rows rows ≠ [] := by
              intro hcon
              rw [hcon] at hfil
              exact hfil rfl
            have hsub := filter_invalid_sublist rows
            have htk2 : ∀ r ∈ filter_invalid_rows rows, r.ticker = some tk :=
              fun r hr => htk r (hsub.subset hr)
            have hdates2 : ∀ r ∈ filter_invalid_rows rows, r.date.isSome :=
              fun r hr => hdates r (hsub.subset hr)
            have hnd2 : ((filter_invalid_rows rows).map Row.date).Nodup :=
              hnd.sublist (hsub.map Row.date)
            obtain ⟨lo, hi, hup⟩ :=
              upsert_ok_of_wf stN hfne htk2 hdates2 (keys_nodup_of_dates hnd2)
            have hss : storeStep cfg stN
                { resN with warnings := resN.warnings ++
                    [Msg.qualityIssues tk (validate (canonicalFrame rows)).2.2] }
                (filter_invalid_rows rows) =
                Except.ok
                  (stN.filter (fun r => !(inSpan tk lo hi r)) ++
                    filter_invalid_rows rows,
                  { resN with
                    warnings := resN.warnings ++
                      [Msg.qualityIssues tk (validate (canonicalFrame rows)).2.2],
                    total_rows_inserted := resN.total_rows_inserted +
                      (filter_invalid_rows rows).length,
                    tickers_processed := resN.tickers_processed + 1 }) := by
              unfold storeStep
              rw [hv]
              simp only [Bool.false_eq_true, if_false]
              rw [hup]
            rw [hss]
            refine ⟨_, _, _, rfl, rfl, ?_, ?_, ?_⟩
            · simp [herr]
            · simp [hwarn]
            · intro tk2 hne2
              exact get_last_date_upsert_other htk2 hne2

theorem step_report_eq (dl : String → Nat → Nat → Option (List Row))
    (cfg : PipeConfig) (hv : cfg.validate_only = false)
    (Hdl : ∀ tk s e rows, dl tk s e = some rows →
      (∀ r ∈ rows, r.ticker = some tk) ∧ (∀ r ∈ rows, r.date.isSome) ∧
      (rows.map Row.date).Nodup)
    (stN stV : List Row) (resN resV : RunResults) (tk : String)
    (hlast : get_last_date stN tk = get_last_date stV tk)
    (herr : resN.errors = resV.errors) (hwarn : resN.warnings = resV.warnings) :
    ∃ stN' resN' resV',
      processTicker dl cfg (stN, resN) tk = (stN', resN') ∧
      processTicker dl { cfg with validate_only := true } (stV, resV) tk =
        (stV, resV') ∧
      resN'.errors = resV'.errors ∧ resN'.warnings = resV'.warnings ∧
      (∀ tk2, tk2 ≠ tk → get_last_date stN' tk2 = get_last_date stN tk2) := by
  obtain ⟨stN', resN', resV', hN, hV, h3, h4, h5⟩ :=
    afterFetch_pair cfg hv stN stV resN resV tk herr hwarn
      (dl tk
        (computeWindowStart cfg.incremental cfg.start_date
          (get_last_date stN tk) cfg.default_start_date)
        (match cfg.end_date with
         | some e => e
         | none => cfg.default_end_date))
      (fun rows h => Hdl tk _ _ rows h)
  refine ⟨stN', resN', resV', ?_, ?_, h3, h4, h5⟩
  · simp only [processTicker, processTickerBody, hN]
  · simp only [processTicker, processTickerBody]
    rw [← hlast, hV]

theorem runTickers_report_eq (dl : String → Nat → Nat → Option (List Row))
    (cfg : PipeConfig) (hv : cfg.validate_only = false)
    (Hdl : ∀ tk s e rows, dl tk s e = some rows →
      (∀ r ∈ rows, r.ticker = some tk) ∧ (∀ r ∈ rows, r.date.isSome) ∧
      (rows.map Row.date).Nodup) :
    ∀ (ts : List String) (stN stV : List Row) (resN resV : RunResults),
      ts.Nodup →
      (∀ tk ∈ ts, get_last_date stN tk = get_last_date stV tk) →
      resN.errors = resV.errors → resN.warnings = resV.warnings →
      (runTickers dl cfg (stN, resN) ts).2.errors =
        (runTickers dl { cfg with validate_only := true } (stV, resV) ts).2.errors ∧
      (runTickers dl cfg (stN, resN) ts).2.warnings =
        (runTickers dl { cfg with validate_only := true } (stV, resV) ts).2.warnings := by
  intro ts
  induction ts with
  | nil =>
    intro stN stV resN resV _ _ herr hwarn
    exact ⟨herr, hwarn⟩
  | cons tk rest ih =>
    intro stN stV resN resV hnodup hagree herr hwarn
    obtain ⟨stN', resN', resV', hN, hV, h3, h4, h5⟩ :=
      step_report_eq dl cfg hv Hdl stN stV resN resV tk
        (hagree tk (List.mem_cons_self _ _)) herr hwarn
    simp only [runTickers, hN, hV]
    refine ih stN' stV resN' resV' (List.Nodup.of_cons hnodup) ?_ h3 h4
    intro tk2 htk2
    have hne2 : tk2 ≠ tk := by
      intro hcon
      subst hcon
      exact (List.nodup_cons.mp hnodup).1 htk2
    rw [h5 tk2 hne2]
    exact hagree tk2 (List.mem_cons_of_mem _ htk2)

/-- Ten valid, consecutive daily rows for ticker A (days 1..10). -/
def rows10 : List Row :=
  [wRow "A" 1 1, wRow "A" 2 1, wRow "A" 3 1, wRow "A" 4 1, wRow "A" 5 1,
   wRow "A" 6 1, wRow "A" 7 1, wRow "A" 8 1, wRow "A" 9 1, wRow "A" 10 1]

/-- A downloader stub: querying ticker A from day 0 yields `rows10`; any
other query yields no data. -/
def dl9 : String → Nat → Nat → Option (List Row) :=
  fun tk s _ => if tk = "A" ∧ s = 0 then some rows10 else none

/-- C9 counterexample: with the duplicate ticker list `["A", "A"]` over an
empty store, the incremental normal run inserts rows for the first
occurrence, so the second occurrence fetches from day 11 and finds no data
(a "no data" warning); the validate-only run never writes, re-fetches from
day 0, and records no warning — the two reports' warning lists differ, so
reporting is not identical between the two modes. -/
theorem C9_counterexample :
    (run_pipeline dl9 cfgN (some []) ["A", "A"]).results.warnings =
      [Msg.noData "A"] ∧
    (run_pipeline dl9 { cfgN with validate_only := true }
        (some []) ["A", "A"]).results.warnings = [] ∧
    (run_pipeline dl9 cfgN (some []) ["A", "A"]).results.warnings ≠
      (run_pipeline dl9 { cfgN with validate_only := true }
        (some []) ["A", "A"]).results.warnings := by
  refine ⟨?_, ?_, ?_⟩ <;> decide

theorem dl9_wf : ∀ tk s e rows, dl9 tk s e = some rows →
    (∀ r ∈ rows, r.ticker = some tk) ∧ (∀ r ∈ rows, r.date.isSome) ∧
    (rows.map Row.date).Nodup := by
  intro tk s e rows h
  unfold dl9 at h
  by_cases hc : tk = "A" ∧ s = 0
  · rw [if_pos hc] at h
    injection h with h
    subst h
    obtain ⟨h1, _⟩ := hc
    subst h1
    exact ⟨by decide, by decide, by decide⟩
  · rw [if_neg hc] at h
    exact absurd h (by simp)

/-- C9 amended: with `validateOnly = true` the run performs no store write
and reports zero rows inserted, regardless of validation outcome; and the
error and warning lists coincide with those of an otherwise-identical
normal run provided the requested tickers are pairwise distinct and every
fetched batch is ticker-stamped with present, pairwise-distinct dates (so
the normal run's store writes succeed).  With a repeated ticker the
reports can differ, because the normal run's inserts change the later
occurrence's incremental window (see the counterexample). -/
theorem C9_validate_only_amended (dl : String → Nat → Nat → Option (List Row))
    (cfg : PipeConfig) (st0 : List Row) (ts : List String) :
    (cfg.validate_only = true →
      (run_pipeline dl cfg (some st0) ts).finalStore = some st0 ∧
      (run_pipeline dl cfg (some st0) ts).results.total_rows_inserted = 0) ∧
    (cfg.validate_only = false →
      (∀ tk s e rows, dl tk s e = some rows →
        (∀ r ∈ rows, r.ticker = some tk) ∧ (∀ r ∈ rows, r.date.isSome) ∧
        (rows.map Row.date).Nodup) →
      ts.Nodup →
      (run_pipeline dl cfg (some st0) ts).results.errors =
        (run_pipeline dl { cfg with validate_only := true }
          (some st0) ts).results.errors ∧
      (run_pipeline dl cfg (some st0) ts).results.warnings =
        (run_pipeline dl { cfg with validate_only := true }
          (some st0) ts).results.warnings) := by
  constructor
  · intro hv
    obtain ⟨h1, h2⟩ := runTickers_vonly dl cfg hv ts st0 initResults
    constructor
    · simp only [run_pipeline]
      rw [h1]
    · simp only [run_pipeline]
      exact h2
  · intro hv Hdl hnodup
    obtain ⟨h1, h2⟩ := runTickers_report_eq dl cfg hv Hdl ts st0 st0 initResults
      initResults hnodup (fun _ _ => rfl) rfl rfl
    exact ⟨h1, h2⟩

theorem C9_witness :
    ((run_pipeline dl9 { cfgN with validate_only := true }
        (some []) ["A", "B"]).finalStore = some [] ∧
      (run_pipeline dl9 { cfgN with validate_only := true }
        (some []) ["A", "B"]).results.total_rows_inserted = 0) ∧
    ((run_pipeline dl9 cfgN (some []) ["A", "B"]).results.errors =
        (run_pipeline dl9 { cfgN with validate_only := true }
          (some []) ["A", "B"]).results.errors ∧
      (run_pipeline dl9 cfgN (some []) ["A", "B"]).results.warnings =
        (run_pipeline dl9 { cfgN with validate_only := true }
          (some []) ["A", "B"]).results.warnings) :=
  ⟨(C9_validate_only_amended dl9 { cfgN with validate_only := true }
      [] ["A", "B"]).1 rfl,
   (C9_validate_only_amended dl9 cfgN [] ["A", "B"]).2 rfl dl9_wf (by decide)⟩
